import Mathlib

/-!
Shallow embedding of the calendar-grid and day-information core of the
EthCal GNOME extension: `MonthGridService` (month-grid generation) and
`DayInfoService` (per-day holiday/fasting aggregation).

The external `kenat` Ethiopian-calendar library (conversion, holiday tables,
fasting tables, day differences, Geez numerals) is not part of this
repository; it is modelled by records of abstract functions (`MGLib`,
`DayLib`) that each service consumes.  The JavaScript expression
`new Date(y, m-1, d).getDay()` (day of week, Sunday = 0) is modelled
concretely by Sakamoto's day-of-week algorithm over the proleptic Gregorian
calendar (`jsGetDay`).  All JavaScript numbers occurring in this core are
integers, modelled by `Int`.
-/

/-- An Ethiopian calendar date (month ranges over 1..13). -/
structure EthDate where
  year : Int
  month : Int
  day : Int
deriving DecidableEq, Repr

/-- A Gregorian calendar date. -/
structure GregDate where
  year : Int
  month : Int
  day : Int
deriving DecidableEq, Repr

/-- One entry of `Kenat.getMonthCalendar`: an Ethiopian day paired with its
Gregorian equivalent. -/
structure RawDay where
  ethiopian : EthDate
  gregorian : GregDate
deriving DecidableEq, Repr

/-- Sakamoto month offsets for the day-of-week computation. -/
def sakamotoOffsets : List Int := [0, 3, 2, 5, 0, 3, 5, 1, 4, 6, 2, 4]

/-- Model of the JavaScript `new Date(g.year, g.month - 1, g.day).getDay()`
call: day of week of a proleptic Gregorian date, 0 = Sunday .. 6 = Saturday
(Sakamoto's algorithm). -/
def jsGetDay (g : GregDate) : Int :=
  let y : Int := if g.month < 3 then g.year - 1 else g.year
  (y + y.ediv 4 - y.ediv 100 + y.ediv 400 +
    sakamotoOffsets.getD (g.month - 1).toNat 0 + g.day).emod 7

/-- The fixed Sunday-first weekday-name table `WEEKDAY_LABELS` of
`MonthGridService` (identical table appears in `DayInfoService`). -/
def weekdayLabels (lang : String) : List String :=
  if lang = "english" then
    ["Sunday", "Monday", "Tuesday", "Wednesday", "Thursday", "Friday",
      "Saturday"]
  else
    ["እሑድ", "ሰኞ", "ማክሰኞ", "ረቡዕ", "ሐሙስ", "ዓርብ", "ቅዳሜ"]

/-- A JavaScript value that is either a number or a string (the TS type
`number | string` used for localized labels). -/
inductive NumOrStr where
  | num (n : Int)
  | str (s : String)
deriving DecidableEq, Repr

/-- Localized Ethiopian date label (`EthiopianDateLabel`). -/
structure EthLabel where
  year : NumOrStr
  month : NumOrStr
  day : NumOrStr
deriving DecidableEq, Repr

/-- A holiday record as consumed by `MonthGridService` (from
`getHolidaysInMonth`); localization details irrelevant to the embedding are
flattened to strings. -/
structure Holiday where
  key : String
  name : String
  description : String
  tags : List String
  ethiopian : EthDate
  gregorian : Option GregDate
deriving DecidableEq, Repr

/-- One grid cell (`DayCell`). -/
structure DayCell where
  ethiopian : EthLabel
  ethiopianNumeric : EthDate
  gregorian : GregDate
  weekday : Int
  weekdayName : String
  isToday : Bool
  holidayTags : List String
  holidays : List Holiday
deriving DecidableEq, Repr

/-- The slice of the external `kenat` library consumed by
`MonthGridService`: current Ethiopian date, month calendar, holiday table,
month names and Geez numeral formatting. -/
structure MGLib where
  nowEth : EthDate
  getMonthCalendar : Int → Int → List RawDay
  getHolidaysInMonth : Int → Int → String → Option (List String) → List Holiday
  monthNames : String → List String
  toGeez : Int → String

/-- The `kenat` holiday-tag constants used by mode filtering. -/
def HolidayTagChristian : String := "christian"

/-- The `kenat` Muslim holiday tag. -/
def HolidayTagMuslim : String := "muslim"

/-- The `kenat` public holiday tag. -/
def HolidayTagPublic : String := "public"

/-- Constructor options of `MonthGridService` (`MonthGridOptions`); every
field is optional, `none` meaning `undefined`.  `holidayFilter` and `mode`
collapse `undefined` and `null` to `none`, matching the `?? null` defaults. -/
structure MonthGridOptions where
  year : Option Int := none
  month : Option Int := none
  useGeez : Option Bool := none
  weekStart : Option Int := none
  weekdayLang : Option String := none
  holidayFilter : Option (List String) := none
  mode : Option String := none
  showAllSaints : Option Bool := none
deriving DecidableEq, Repr

/-- The instance fields of a constructed `MonthGridService`. -/
structure MGState where
  year : Int
  month : Int
  weekStart : Int
  useGeez : Bool
  weekdayLang : String
  holidayFilter : Option (List String)
  mode : Option String
  showAllSaints : Bool
deriving DecidableEq, Repr

/-- `MonthGridService._validateConfig`: the three sequential checks, each
throwing (modelled by `Except.error`) on failure. -/
def validateConfig (c : MonthGridOptions) : Except String Unit :=
  if (c.year.isSome && c.month.isNone) || (c.year.isNone && c.month.isSome) then
    .error "If providing year or month, both must be provided."
  else if c.weekStart.any (fun w => decide (w < 0) || decide (6 < w)) then
    .error "Invalid weekStart value. Must be between 0 and 6."
  else if c.weekdayLang.any (fun l => !(l == "amharic" || l == "english")) then
    .error "Invalid weekdayLang. Must be amharic or english."
  else
    .ok ()

/-- The `MonthGridService` constructor: validate first (before any
defaulting), then fill every missing field with its default, taking the
current Ethiopian date from the library for the year/month cursor. -/
def mkMonthGridService (lib : MGLib) (c : MonthGridOptions) :
    Except String MGState :=
  match validateConfig c with
  | .error e => .error e
  | .ok _ =>
      .ok { year := c.year.getD lib.nowEth.year
            month := c.month.getD lib.nowEth.month
            weekStart := c.weekStart.getD 1
            useGeez := c.useGeez.getD false
            weekdayLang := c.weekdayLang.getD "amharic"
            holidayFilter := c.holidayFilter
            mode := c.mode
            showAllSaints := c.showAllSaints.getD false }

/-- The filter argument `MonthGridService._getHolidays` passes to
`getHolidaysInMonth`: starts from `holidayFilter` and is overwritten by the
single tag of `mode` when a mode is set (the three sequential `if`s). -/
def effFilter (s : MGState) : Option (List String) :=
  let t : Option (List String) := s.holidayFilter
  let t := if s.mode = some "christian" then some [HolidayTagChristian] else t
  let t := if s.mode = some "muslim" then some [HolidayTagMuslim] else t
  let t := if s.mode = some "public" then some [HolidayTagPublic] else t
  t

/-- `MonthGridService._getHolidays`. -/
def getHolidaysS (lib : MGLib) (s : MGState) : List Holiday :=
  lib.getHolidaysInMonth s.year s.month s.weekdayLang (effFilter s)

/-- `MonthGridService._getRawDays`. -/
def getRawDays (lib : MGLib) (s : MGState) : List RawDay :=
  lib.getMonthCalendar s.year s.month

/-- The `y-m-d` string key used by `_mergeDays` to group holidays by
Ethiopian date. -/
def dateKey (d : EthDate) : String :=
  toString d.year ++ "-" ++ toString d.month ++ "-" ++ toString d.day

/-- The body of the `rawDays.map` inside `_mergeDays`: build one `DayCell`
from a raw day, attaching the holidays whose date key matches. -/
def mkDayCell (lib : MGLib) (s : MGState) (holidaysList : List Holiday)
    (day : RawDay) : DayCell :=
  let eth := day.ethiopian
  let greg := day.gregorian
  let jsWeekday := jsGetDay greg
  let labels := weekdayLabels s.weekdayLang
  let monthLabels := lib.monthNames s.weekdayLang
  let cellHolidays :=
    holidaysList.filter (fun h => dateKey h.ethiopian == dateKey eth)
  { ethiopian :=
      { year := if s.useGeez then .str (lib.toGeez eth.year) else .num eth.year
        month := if s.useGeez then
            .str (monthLabels.getD (eth.month - 1).toNat "")
          else .num eth.month
        day := if s.useGeez then .str (lib.toGeez eth.day) else .num eth.day }
    ethiopianNumeric := eth
    gregorian := greg
    weekday := jsWeekday
    weekdayName := labels.getD jsWeekday.toNat ""
    isToday := eth.year == lib.nowEth.year && eth.month == lib.nowEth.month &&
      eth.day == lib.nowEth.day
    holidayTags := cellHolidays.flatMap (fun h => h.tags)
    holidays := cellHolidays }

/-- `MonthGridService._mergeDays`: map every raw day to a cell, then
left-pad with `(firstWeekday - weekStart + 7) % 7` nulls (when the month is
empty, the padding falls back to a JS `Date` built directly from the
Ethiopian year/month). -/
def mergeDays (lib : MGLib) (s : MGState) (rawDays : List RawDay)
    (holidaysList : List Holiday) : List (Option DayCell) :=
  let mapped := rawDays.map (mkDayCell lib s holidaysList)
  let offset : Int :=
    match mapped with
    | [] => (jsGetDay { year := s.year, month := s.month, day := 1 } -
        s.weekStart + 7).tmod 7
    | c :: _ => (c.weekday - s.weekStart + 7).tmod 7
  List.replicate offset.toNat none ++ mapped.map some

/-- `MonthGridService._getWeekdayHeaders`:
`labels.slice(weekStart).concat(labels.slice(0, weekStart))`. -/
def getWeekdayHeaders (s : MGState) : List String :=
  let labels := weekdayLabels s.weekdayLang
  labels.drop s.weekStart.toNat ++ labels.take s.weekStart.toNat

/-- `MonthGridService._getLocalizedMonthName`. -/
def getLocalizedMonthName (lib : MGLib) (s : MGState) : String :=
  (lib.monthNames s.weekdayLang).getD (s.month - 1).toNat ""

/-- `MonthGridService._getLocalizedYear`. -/
def getLocalizedYear (lib : MGLib) (s : MGState) : NumOrStr :=
  if s.useGeez then .str (lib.toGeez s.year) else .num s.year

/-- The view model returned by `generate()` (`MonthGridResult`; the `up`
and `down` closures are modelled separately as the state transformers
`upS`/`downS`). -/
structure MGResult where
  headers : List String
  days : List (Option DayCell)
  year : NumOrStr
  month : Int
  monthName : String
deriving DecidableEq, Repr

/-- `MonthGridService.generate` as a state-passing function: the body only
reads the instance fields, so the returned state is the input state. -/
def generateS (lib : MGLib) (s : MGState) : MGResult × MGState :=
  let rawDays := getRawDays lib s
  let holidays := getHolidaysS lib s
  let paddedDays := mergeDays lib s rawDays holidays
  let headers := getWeekdayHeaders s
  let monthName := getLocalizedMonthName lib s
  let yearLabel := getLocalizedYear lib s
  ({ headers := headers
     days := paddedDays
     year := yearLabel
     month := s.month
     monthName := monthName }, s)

/-- `MonthGridService.up`: advance the cursor one month, wrapping 13 → 1
with a year increment. -/
def upS (s : MGState) : MGState :=
  if s.month = 13 then { s with month := 1, year := s.year + 1 }
  else { s with month := s.month + 1 }

/-- `MonthGridService.down`: retreat the cursor one month, wrapping 1 → 13
with a year decrement. -/
def downS (s : MGState) : MGState :=
  if s.month = 1 then { s with month := 13, year := s.year - 1 }
  else { s with month := s.month - 1 }

/-- `MonthGridService.resetToCurrentMonth`. -/
def resetToCurrentMonthS (lib : MGLib) (s : MGState) : MGState :=
  { s with year := lib.nowEth.year, month := lib.nowEth.month }

/-- `MonthGridService.setDate`. -/
def setDateS (month year : Int) (s : MGState) : MGState :=
  { s with month := month, year := year }

/-!  DayInfoService (`src/services/dayInfoService.ts`).  -/

/-- A holiday as returned by `getHolidaysInMonth` to `DayInfoService`
(`DayHoliday`). -/
structure DayHoliday where
  key : String
  name : String
  description : String
  tags : List String
  movable : Bool
  ethiopian : EthDate
  gregorian : Option GregDate
deriving DecidableEq, Repr

/-- The record returned by `getFastingInfo` (name, description and an
optional date range; `none` range means a weekly recurring fast). -/
structure FastingInfo where
  name : String
  description : String
  period : Option (EthDate × EthDate)
deriving DecidableEq, Repr

/-- A fasting-period membership record (`FastingContext`). -/
structure FastingContext where
  key : String
  name : String
  description : String
  currentDay : Int
  totalDays : Int
  isActive : Bool
  period : Option (EthDate × EthDate)
  tags : Option (List String)
deriving DecidableEq, Repr

/-- The aggregate returned by `getDayInformation` (`DayInformation`). -/
structure DayInformation where
  ethiopian : EthDate
  gregorian : GregDate
  holidays : List DayHoliday
  fastingPeriods : List FastingContext
  isToday : Bool
  weekday : Int
  weekdayName : String
deriving DecidableEq, Repr

/-- The slice of the external `kenat` library consumed by `DayInfoService`.
The two table lookups are `Except`-valued because the service wraps them in
`try`/`catch`; `getFastingInfo` may also succeed with no record (`none`),
matching the `!fastingInfo` check. -/
structure DayLib where
  nowEth : EthDate
  toGregorian : EthDate → GregDate
  getHolidaysInMonth : Int → Int → String → Except String (List DayHoliday)
  getFastingInfo : String → Int → String → Except String (Option FastingInfo)
  diffInDays : EthDate → EthDate → Int

/-- `Object.values(FastingKeys)` in declaration order. -/
def FASTING_KEYS : List String :=
  ["ABIY_TSOME", "TSOME_HAWARYAT", "TSOME_NEBIYAT", "NINEVEH", "RAMADAN",
    "FILSETA", "TSOME_DIHENET"]

/-- JavaScript `a || b` on an optional string: `b` when the value is
missing or the empty string (both falsy). -/
def jsStrOr (o : Option String) (d : String) : String :=
  match o with
  | none => d
  | some s => if s = "" then d else s

/-- `DayInfoService.getWeekday`: convert to the Gregorian equivalent and
take the JS day of week (0 = Sunday). -/
def getWeekday (lib : DayLib) (d : EthDate) : Int :=
  jsGetDay (lib.toGregorian d)

/-- `DayInfoService.getWeekdayName`. -/
def getWeekdayName (lang : String) (weekday : Int) : String :=
  jsStrOr ((weekdayLabels lang).get? weekday.toNat) ""

/-- `DayInfoService.isTsomeDihnetFastDay`: Wednesday (3) or Friday (5). -/
def isTsomeDihnetFastDay (lib : DayLib) (d : EthDate) : Bool :=
  getWeekday lib d == 3 || getWeekday lib d == 5

/-- `DayInfoService.isDateInRange`: inclusive comparison of the
`year*10000 + month*100 + day` integer encodings. -/
def isDateInRange (date start stop : EthDate) : Bool :=
  let dateValue := date.year * 10000 + date.month * 100 + date.day
  let startValue := start.year * 10000 + start.month * 100 + start.day
  let endValue := stop.year * 10000 + stop.month * 100 + stop.day
  decide (startValue ≤ dateValue) && decide (dateValue ≤ endValue)

/-- `DayInfoService.calculateDayInPeriod`:
`Math.max(1, diffInDays(date, start) + 1)`. -/
def calculateDayInPeriod (lib : DayLib) (date start : EthDate) : Int :=
  max 1 (lib.diffInDays date start + 1)

/-- `DayInfoService.calculateTotalDays`:
`Math.max(1, diffInDays(end, start) + 1)`. -/
def calculateTotalDays (lib : DayLib) (start stop : EthDate) : Int :=
  max 1 (lib.diffInDays stop start + 1)

/-- `DayInfoService.getDayHolidays`: the month's holidays filtered by day
number; a throwing lookup degrades to the empty list. -/
def getDayHolidays (lib : DayLib) (lang : String) (d : EthDate) :
    List DayHoliday :=
  match lib.getHolidaysInMonth d.year d.month lang with
  | .error _ => []
  | .ok monthHolidays =>
      monthHolidays.filter (fun h => h.ethiopian.day == d.day)

/-- What one fasting key contributes inside the
`Object.values(FastingKeys).forEach` loop of `getDayFastingContext`: a
throwing lookup contributes nothing (the `catch`); a lookup with no record
or no period contributes the weekly Tsome-Dihnet entry on Wed/Fri only; a
lookup with a period contributes a range entry when the date is inside. -/
def keyContrib (lib : DayLib) (lang : String) (d : EthDate) (k : String) :
    List FastingContext :=
  match lib.getFastingInfo k d.year lang with
  | .error _ => []
  | .ok fi =>
      match fi with
      | some info =>
          match info.period with
          | some p =>
              if isDateInRange d p.1 p.2 then
                [{ key := k
                   name := info.name
                   description := info.description
                   currentDay := calculateDayInPeriod lib d p.1
                   totalDays := calculateTotalDays lib p.1 p.2
                   isActive := true
                   period := some p
                   tags := none }]
              else []
          | none =>
              if k = "TSOME_DIHENET" then
                if isTsomeDihnetFastDay lib d then
                  [{ key := k
                     name := jsStrOr (some info.name) "Fast of Salvation"
                     description := jsStrOr (some info.description)
                       "Weekly fast on Wednesdays and Fridays"
                     currentDay := 1
                     totalDays := 1
                     isActive := true
                     period := none
                     tags := none }]
                else []
              else []
      | none =>
          if k = "TSOME_DIHENET" then
            if isTsomeDihnetFastDay lib d then
              [{ key := k
                 name := "Fast of Salvation"
                 description := "Weekly fast on Wednesdays and Fridays"
                 currentDay := 1
                 totalDays := 1
                 isActive := true
                 period := none
                 tags := none }]
            else []
          else []

/-- `DayInfoService.getDayFastingContext`: the `forEach`/`push` loop over
all fasting keys, in declaration order. -/
def getDayFastingContext (lib : DayLib) (lang : String) (d : EthDate) :
    List FastingContext :=
  FASTING_KEYS.flatMap (keyContrib lib lang d)

/-- `DayInfoService.getDayInformation`. -/
def getDayInformation (lib : DayLib) (lang : String) (d : EthDate) :
    DayInformation :=
  let gregorian := lib.toGregorian d
  let today := lib.nowEth
  let isToday := d.year == today.year && d.month == today.month &&
    d.day == today.day
  let weekday := getWeekday lib d
  { ethiopian := d
    gregorian := gregorian
    holidays := getDayHolidays lib lang d
    fastingPeriods := getDayFastingContext lib lang d
    isToday := isToday
    weekday := weekday
    weekdayName := getWeekdayName lang weekday }

/-- `DayInfoService.formatFastingContext`. -/
def formatFastingContext (f : FastingContext) : String :=
  if f.key = "TSOME_DIHENET" then f.name
  else
    "Day " ++ toString f.currentDay ++ " of " ++ toString f.totalDays ++
      " - " ++ f.name

/-- One entry of the homogeneous event list built by `getDayEvents`. -/
structure DayEvent where
  type : String
  title : String
  description : String
  tags : List String
deriving DecidableEq, Repr

/-- The holiday-to-event mapping of `getDayEvents`. -/
def holidayEventOf (h : DayHoliday) : DayEvent :=
  { type := "holiday", title := h.name, description := h.description,
    tags := h.tags }

/-- The fasting-to-event mapping of `getDayEvents` (with the `f.tags || []`
fallback). -/
def fastingEventOf (f : FastingContext) : DayEvent :=
  { type := "fasting", title := formatFastingContext f,
    description := f.description, tags := f.tags.getD [] }

/-- The record returned by `getDayEvents`. -/
structure DayEventsResult where
  dayInfo : DayInformation
  events : List DayEvent
  hasEvents : Bool
deriving DecidableEq, Repr

/-- `DayInfoService.getDayEvents`: holidays first, then fasting periods,
with `hasEvents = events.length > 0`. -/
def getDayEvents (lib : DayLib) (lang : String) (d : EthDate) :
    DayEventsResult :=
  let dayInfo := getDayInformation lib lang d
  let events := dayInfo.holidays.map holidayEventOf ++
    dayInfo.fastingPeriods.map fastingEventOf
  { dayInfo := dayInfo
    events := events
    hasEvents := decide (0 < events.length) }

/-!  Concrete library instances used by the witness theorems.  -/

/-- A concrete `MGLib` whose month calendar always returns two days
(New Year 2016 E.C.; 2023-09-12 was a Tuesday). -/
def testMGLib : MGLib :=
  { nowEth := { year := 2016, month := 1, day := 5 }
    getMonthCalendar := fun y m =>
      [{ ethiopian := { year := y, month := m, day := 1 }
         gregorian := { year := 2023, month := 9, day := 12 } },
       { ethiopian := { year := y, month := m, day := 2 }
         gregorian := { year := 2023, month := 9, day := 13 } }]
    getHolidaysInMonth := fun _ _ _ _ => []
    monthNames := fun _ =>
      ["መስከረም", "ጥቅምት", "ኅዳር", "ታኅሣሥ", "ጥር", "የካቲት", "መጋቢት", "ሚያዝያ",
        "ግንቦት", "ሰኔ", "ሐምሌ", "ነሐሴ", "ጳጉሜን"]
    toGeez := fun n => toString n }

/-- A concrete month-grid state: Meskerem 2016, Monday week start. -/
def testState : MGState :=
  { year := 2016, month := 1, weekStart := 1, useGeez := false
    weekdayLang := "amharic", holidayFilter := none, mode := none
    showAllSaints := false }

/-- A concrete month-grid state sitting on Pagume (month 13), to exercise
the year-boundary wrap. -/
def testState13 : MGState :=
  { year := 2016, month := 13, weekStart := 0, useGeez := false
    weekdayLang := "english", holidayFilter := none, mode := none
    showAllSaints := false }

/-!  Theorems.  -/

/-- Claim C2: from any cursor with month in [1,13], `up()` then `down()`
(and `down()` then `up()`) restores the original `(year, month)` state,
including the 13 to 1 and 1 to 13 year-boundary wraps. -/
theorem up_down_roundtrip (s : MGState) (h1 : 1 ≤ s.month)
    (h13 : s.month ≤ 13) : downS (upS s) = s ∧ upS (downS s) = s := by
  obtain ⟨y, m, ws, ug, lang, hf, mo, sas⟩ := s
  dsimp only at h1 h13
  constructor
  · by_cases hm : m = 13
    · subst hm
      simp [upS, downS]
    · have hne : ¬(m + 1 = 1) := by omega
      simp [upS, downS, hm, hne]
  · by_cases hm : m = 1
    · subst hm
      simp [upS, downS]
    · have hne : ¬(m - 1 = 13) := by omega
      simp only [upS, downS, if_neg hm, if_neg hne]
      simp only [MGState.mk.injEq, and_true, true_and]
      omega

/-- Witness for C2 at the year boundary: month 13 wraps through (1, Y+1)
and back. -/
theorem up_down_roundtrip_witness :
    1 ≤ testState13.month ∧ testState13.month ≤ 13 ∧
      (downS (upS testState13) = testState13 ∧
        upS (downS testState13) = testState13) :=
  ⟨by decide, by decide,
    up_down_roundtrip testState13 (by decide) (by decide)⟩

/-- Claim C6: `calculateDayInPeriod` equals `max 1 (diffInDays date start + 1)`,
`calculateTotalDays` equals `max 1 (diffInDays end start + 1)`, and both are
at least 1 for every input (including boundary dates). -/
theorem calculate_days_floored (lib : DayLib) (date start stop : EthDate) :
    calculateDayInPeriod lib date start =
        max 1 (lib.diffInDays date start + 1) ∧
      calculateTotalDays lib start stop =
        max 1 (lib.diffInDays stop start + 1) ∧
      1 ≤ calculateDayInPeriod lib date start ∧
      1 ≤ calculateTotalDays lib start stop :=
  ⟨rfl, rfl, le_max_left _ _, le_max_left _ _⟩

/-- Claim C9: `generate()` is read-only on the service state: the state
after a call is the state before it, field by field; only the navigation
and reset operations move the cursor. -/
theorem generate_preserves_state (lib : MGLib) (s : MGState) :
    (generateS lib s).2 = s ∧
      (generateS lib s).2.year = s.year ∧
      (generateS lib s).2.month = s.month ∧
      (generateS lib s).2.weekStart = s.weekStart ∧
      (generateS lib s).2.useGeez = s.useGeez ∧
      (generateS lib s).2.weekdayLang = s.weekdayLang ∧
      (generateS lib s).2.holidayFilter = s.holidayFilter ∧
      (generateS lib s).2.mode = s.mode ∧
      (generateS lib s).2.showAllSaints = s.showAllSaints :=
  ⟨rfl, rfl, rfl, rfl, rfl, rfl, rfl, rfl, rfl⟩

/-- Claim C3: the constructor errors exactly when one of year/month is
given without the other, or a provided `weekStart` is outside [0,6], or a
provided `weekdayLang` is unrecognized; in every other case it succeeds
(and an error case never produces a defaulted state at all). -/
theorem mkMonthGridService_error_iff (lib : MGLib) (c : MonthGridOptions) :
    (mkMonthGridService lib c).toOption = none ↔
      ((c.year.isSome ∧ c.month = none) ∨ (c.year = none ∧ c.month.isSome) ∨
        (∃ w, c.weekStart = some w ∧ (w < 0 ∨ 6 < w)) ∨
        (∃ l, c.weekdayLang = some l ∧ l ≠ "amharic" ∧ l ≠ "english")) := by
  obtain ⟨oy, om, og, ow, ol, ohf, omo, osa⟩ := c
  simp only [mkMonthGridService, validateConfig]
  cases oy <;> cases om <;> cases ow <;> cases ol <;>
    simp [Option.any, Except.toOption] <;>
    split_ifs <;>
    simp_all [Except.toOption]

/-- The header list is a left rotation of the label table: brute-force
check over the 7 admissible week starts and the 2 languages. -/
theorem headersRotAux (ws : Int) (lang : String) (h0 : 0 ≤ ws)
    (h6 : ws ≤ 6) (hl : lang = "amharic" ∨ lang = "english") :
    ((weekdayLabels lang).drop ws.toNat ++
        (weekdayLabels lang).take ws.toNat).length = 7 ∧
      ∀ i : Nat, i < 7 →
        ((weekdayLabels lang).drop ws.toNat ++
            (weekdayLabels lang).take ws.toNat).getD i "" =
          (weekdayLabels lang).getD ((ws.toNat + i) % 7) "" := by
  rcases hl with h | h <;> subst h <;> interval_cases ws <;> decide

/-- Claim C8: `generate().headers` always has length 7 and is the weekday
label table of the configured language rotated left by `weekStart`:
entry `i` names weekday `(weekStart + i) % 7`. -/
theorem generate_headers_rotation (lib : MGLib) (s : MGState)
    (h0 : 0 ≤ s.weekStart) (h6 : s.weekStart ≤ 6)
    (hl : s.weekdayLang = "amharic" ∨ s.weekdayLang = "english") :
    (generateS lib s).1.headers.length = 7 ∧
      ∀ i : Nat, i < 7 →
        (generateS lib s).1.headers.getD i "" =
          (weekdayLabels s.weekdayLang).getD ((s.weekStart.toNat + i) % 7)
            "" :=
  headersRotAux s.weekStart s.weekdayLang h0 h6 hl

/-- Witness for C8 at a concrete configuration (Amharic, Monday start). -/
theorem generate_headers_rotation_witness :
    ((0 : Int) ≤ testState.weekStart ∧ testState.weekStart ≤ 6 ∧
        (testState.weekdayLang = "amharic" ∨
          testState.weekdayLang = "english")) ∧
      ((generateS testMGLib testState).1.headers.length = 7 ∧
        ∀ i : Nat, i < 7 →
          (generateS testMGLib testState).1.headers.getD i "" =
            (weekdayLabels testState.weekdayLang).getD
              ((testState.weekStart.toNat + i) % 7) "") :=
  ⟨⟨by decide, by decide, by decide⟩,
    generate_headers_rotation testMGLib testState (by decide) (by decide)
      (by decide)⟩

/-- The single holiday tag selected by a mode. -/
def modeTag (m : String) : String :=
  if m = "christian" then HolidayTagChristian
  else if m = "muslim" then HolidayTagMuslim
  else HolidayTagPublic

/-- Claim C10: when a mode is set, the holiday query is filtered by exactly
that mode's single tag, and the configured `holidayFilter` has no effect on
the query. -/
theorem mode_overrides_holiday_filter (lib : MGLib) (s : MGState)
    (m : String) (hm : s.mode = some m)
    (hmem : m = "christian" ∨ m = "muslim" ∨ m = "public") :
    effFilter s = some [modeTag m] ∧
      getHolidaysS lib s =
        lib.getHolidaysInMonth s.year s.month s.weekdayLang
          (some [modeTag m]) ∧
      ∀ f, getHolidaysS lib { s with holidayFilter := f } =
        getHolidaysS lib s := by
  have key : effFilter s = some [modeTag m] ∧
      ∀ f, effFilter { s with holidayFilter := f } = effFilter s := by
    rcases hmem with h | h | h <;> subst h <;>
      refine ⟨?_, fun f => ?_⟩ <;> simp [effFilter, modeTag, hm]
  refine ⟨key.1, ?_, fun f => ?_⟩
  · simp only [getHolidaysS, key.1]
  · simp only [getHolidaysS, key.2 f]

/-- A state with a christian mode set and a conflicting holiday filter
configured. -/
def testStateMode : MGState :=
  { year := 2016, month := 1, weekStart := 1, useGeez := false
    weekdayLang := "amharic", holidayFilter := some ["cultural"]
    mode := some "christian", showAllSaints := false }

/-- Witness for C10: with mode christian and holidayFilter cultural, the
query filter is exactly the christian tag. -/
theorem mode_overrides_holiday_filter_witness :
    (testStateMode.mode = some "christian" ∧
        ("christian" = "christian" ∨ "christian" = "muslim" ∨
          "christian" = "public")) ∧
      (effFilter testStateMode = some [modeTag "christian"] ∧
        getHolidaysS testMGLib testStateMode =
          testMGLib.getHolidaysInMonth testStateMode.year testStateMode.month
            testStateMode.weekdayLang (some [modeTag "christian"]) ∧
        ∀ f, getHolidaysS testMGLib { testStateMode with holidayFilter := f } =
          getHolidaysS testMGLib testStateMode) :=
  ⟨⟨rfl, Or.inl rfl⟩,
    mode_overrides_holiday_filter testMGLib testStateMode "christian" rfl
      (Or.inl rfl)⟩

/-- Claim C1: when the month calendar is non-empty and the configuration is
valid, `generate().days` is exactly
`(weekday(day 1 Gregorian) - weekStart + 7) % 7` null cells (a count in
[0,6], where the JS truncating `%` agrees with the mathematical mod)
followed by one cell per raw day, in order. -/
theorem generate_days_left_padding (lib : MGLib) (s : MGState)
    (h0 : 0 ≤ s.weekStart) (h6 : s.weekStart ≤ 6)
    (hl : s.weekdayLang = "amharic" ∨ s.weekdayLang = "english")
    (r0 : RawDay) (rest : List RawDay)
    (hraw : lib.getMonthCalendar s.year s.month = r0 :: rest) :
    (generateS lib s).1.days =
        List.replicate
            ((jsGetDay r0.gregorian - s.weekStart + 7).tmod 7).toNat none ++
          (r0 :: rest).map
            (fun d => some (mkDayCell lib s (getHolidaysS lib s) d)) ∧
      0 ≤ (jsGetDay r0.gregorian - s.weekStart + 7).tmod 7 ∧
      (jsGetDay r0.gregorian - s.weekStart + 7).tmod 7 ≤ 6 ∧
      (jsGetDay r0.gregorian - s.weekStart + 7).tmod 7 =
        (jsGetDay r0.gregorian - s.weekStart + 7).emod 7 := by
  have hw0 : 0 ≤ jsGetDay r0.gregorian := Int.emod_nonneg _ (by decide)
  have hN : 0 ≤ jsGetDay r0.gregorian - s.weekStart + 7 := by omega
  have htm : (jsGetDay r0.gregorian - s.weekStart + 7).tmod 7 =
      (jsGetDay r0.gregorian - s.weekStart + 7).emod 7 :=
    Int.tmod_eq_emod hN (by norm_num)
  refine ⟨?_, ?_, ?_, htm⟩
  · have hd : (generateS lib s).1.days =
        mergeDays lib s (lib.getMonthCalendar s.year s.month)
          (getHolidaysS lib s) := rfl
    rw [hd, hraw]
    simp only [mergeDays, List.map_cons]
    have hw : (mkDayCell lib s (getHolidaysS lib s) r0).weekday =
        jsGetDay r0.gregorian := rfl
    rw [hw]
    simp [List.map_map, Function.comp]
  · rw [htm]
    exact Int.emod_nonneg _ (by decide)
  · rw [htm]
    have h7 : (jsGetDay r0.gregorian - s.weekStart + 7).emod 7 < 7 :=
      Int.emod_lt_of_pos _ (by decide)
    omega

/-- The first raw day of the witness month (2023-09-12, a Tuesday). -/
def testRawDay1 : RawDay :=
  { ethiopian := { year := 2016, month := 1, day := 1 }
    gregorian := { year := 2023, month := 9, day := 12 } }

/-- The remaining raw days of the witness month. -/
def testRawRest : List RawDay :=
  [{ ethiopian := { year := 2016, month := 1, day := 2 }
     gregorian := { year := 2023, month := 9, day := 13 } }]

/-- Witness for C1 on a concrete two-day month (first Gregorian day
2023-09-12, a Tuesday, weekday 2; Monday week start gives 1 null). -/
theorem generate_days_left_padding_witness :
    ((0 : Int) ≤ testState.weekStart ∧ testState.weekStart ≤ 6 ∧
        (testState.weekdayLang = "amharic" ∨
          testState.weekdayLang = "english") ∧
        testMGLib.getMonthCalendar testState.year testState.month =
          testRawDay1 :: testRawRest) ∧
      ((generateS testMGLib testState).1.days =
          List.replicate
              ((jsGetDay testRawDay1.gregorian -
                  testState.weekStart + 7).tmod 7).toNat none ++
            (testRawDay1 :: testRawRest).map
              (fun d => some
                (mkDayCell testMGLib testState
                  (getHolidaysS testMGLib testState) d)) ∧
        0 ≤ (jsGetDay testRawDay1.gregorian -
            testState.weekStart + 7).tmod 7 ∧
        (jsGetDay testRawDay1.gregorian -
            testState.weekStart + 7).tmod 7 ≤ 6 ∧
        (jsGetDay testRawDay1.gregorian -
            testState.weekStart + 7).tmod 7 =
          (jsGetDay testRawDay1.gregorian -
            testState.weekStart + 7).emod 7) :=
  ⟨⟨by decide, by decide, by decide, rfl⟩,
    generate_days_left_padding testMGLib testState (by decide) (by decide)
      (by decide) testRawDay1 testRawRest rfl⟩

/-- Componentwise characterization of Ethiopian date equality. -/
theorem EthDate.eq_iff (a b : EthDate) :
    a = b ↔ a.year = b.year ∧ a.month = b.month ∧ a.day = b.day := by
  cases a
  cases b
  simp [EthDate.mk.injEq]

/-- Every entry contributed by one fasting key carries that key. -/
theorem keyContrib_key (lib : DayLib) (lang : String) (d : EthDate)
    (k : String) : ∀ f ∈ keyContrib lib lang d k, f.key = k := by
  intro f hf
  unfold keyContrib at hf
  cases hcase : lib.getFastingInfo k d.year lang with
  | error e =>
      rw [hcase] at hf
      simp at hf
  | ok fi =>
      rw [hcase] at hf
      cases fi with
      | none =>
          simp only at hf
          split_ifs at hf <;> simp_all
      | some info =>
          simp only at hf
          cases hp : info.period with
          | none =>
              rw [hp] at hf
              simp only at hf
              split_ifs at hf <;> simp_all
          | some p =>
              rw [hp] at hf
              simp only at hf
              split_ifs at hf <;> simp_all

/-- Claim C4: `getDayEvents` reports `hasEvents` exactly when the event
list is non-empty, and the event list is the holidays whose Ethiopian date
equals the queried date (mapped to holiday events) followed by the active
fasting periods (mapped to fasting events), in that order.  The hypothesis
restates the `getHolidaysInMonth` contract: the month table only contains
holidays of the queried year and month. -/
theorem getDayEvents_spec (lib : DayLib) (lang : String) (d : EthDate)
    (hs : List DayHoliday)
    (hok : lib.getHolidaysInMonth d.year d.month lang = .ok hs)
    (hmonth : ∀ h ∈ hs,
      h.ethiopian.year = d.year ∧ h.ethiopian.month = d.month) :
    (getDayEvents lib lang d).hasEvents =
        decide (0 < (getDayEvents lib lang d).events.length) ∧
      (getDayEvents lib lang d).events =
        (hs.filter (fun h => h.ethiopian == d)).map holidayEventOf ++
          (getDayFastingContext lib lang d).map fastingEventOf := by
  constructor
  · rfl
  · have he : (getDayEvents lib lang d).events =
        (getDayHolidays lib lang d).map holidayEventOf ++
          (getDayFastingContext lib lang d).map fastingEventOf := rfl
    rw [he]
    have hgdh : getDayHolidays lib lang d =
        hs.filter (fun h => h.ethiopian.day == d.day) := by
      simp only [getDayHolidays, hok]
    have hfeq : hs.filter (fun h => h.ethiopian.day == d.day) =
        hs.filter (fun h => h.ethiopian == d) := by
      apply List.filter_congr
      intro h hm
      obtain ⟨hy, hmn⟩ := hmonth h hm
      have hiff : h.ethiopian.day = d.day ↔ h.ethiopian = d := by
        rw [EthDate.eq_iff]
        exact ⟨fun x => ⟨hy, hmn, x⟩, fun x => x.2.2⟩
      rw [Bool.eq_iff_iff]
      simpa using hiff
    rw [hgdh, hfeq]

/-- A concrete holiday matching the witness date. -/
def testHoliday1 : DayHoliday :=
  { key := "enkutatash", name := "Enkutatash"
    description := "Ethiopian New Year", tags := ["public"]
    movable := false, ethiopian := { year := 2016, month := 1, day := 1 }
    gregorian := none }

/-- A concrete holiday of the same month on a different day. -/
def testHoliday2 : DayHoliday :=
  { key := "meskel", name := "Meskel"
    description := "Finding of the True Cross", tags := ["religious"]
    movable := false, ethiopian := { year := 2016, month := 1, day := 17 }
    gregorian := none }

/-- A concrete `DayLib` with a two-holiday month table, no fasting records
and a fixed Gregorian equivalent (2023-09-13, a Wednesday). -/
def testDayLib : DayLib :=
  { nowEth := { year := 2016, month := 1, day := 5 }
    toGregorian := fun _ => { year := 2023, month := 9, day := 13 }
    getHolidaysInMonth := fun _ _ _ => .ok [testHoliday1, testHoliday2]
    getFastingInfo := fun _ _ _ => .ok none
    diffInDays := fun _ _ => 0 }

/-- The witness date: 1 Meskerem 2016. -/
def testDate : EthDate := { year := 2016, month := 1, day := 1 }

/-- Witness for C4 at a concrete date with one matching and one
non-matching holiday. -/
theorem getDayEvents_spec_witness :
    (testDayLib.getHolidaysInMonth testDate.year testDate.month "english" =
        .ok [testHoliday1, testHoliday2] ∧
      ∀ h ∈ [testHoliday1, testHoliday2],
        h.ethiopian.year = testDate.year ∧
          h.ethiopian.month = testDate.month) ∧
      ((getDayEvents testDayLib "english" testDate).hasEvents =
        decide
          (0 < (getDayEvents testDayLib "english" testDate).events.length) ∧
      (getDayEvents testDayLib "english" testDate).events =
        (([testHoliday1, testHoliday2]).filter
            (fun h => h.ethiopian == testDate)).map holidayEventOf ++
          (getDayFastingContext testDayLib "english" testDate).map
            fastingEventOf) :=
  ⟨⟨rfl, by decide⟩,
    getDayEvents_spec testDayLib "english" testDate
      [testHoliday1, testHoliday2] rfl (by decide)⟩

/-- Claim C5: a throwing holiday lookup degrades to an empty holiday list,
and a throwing fasting lookup for one key contributes nothing while every
other key's contribution is computed unchanged; `getDayInformation` still
returns, with the other category untouched. -/
theorem lookup_failure_isolated (lib : DayLib) (lang : String) (d : EthDate)
    (k : String) (hk : k ∈ FASTING_KEYS)
    (hH : (lib.getHolidaysInMonth d.year d.month lang).toOption = none)
    (hF : (lib.getFastingInfo k d.year lang).toOption = none) :
    getDayHolidays lib lang d = [] ∧
      keyContrib lib lang d k = [] ∧
      getDayFastingContext lib lang d =
        FASTING_KEYS.flatMap
          (fun j => if j = k then [] else keyContrib lib lang d j) ∧
      (getDayInformation lib lang d).holidays = [] ∧
      (getDayInformation lib lang d).fastingPeriods =
        getDayFastingContext lib lang d := by
  have hH2 : ∃ e, lib.getHolidaysInMonth d.year d.month lang = .error e := by
    cases hcase : lib.getHolidaysInMonth d.year d.month lang with
    | error e => exact ⟨e, rfl⟩
    | ok v =>
        rw [hcase] at hH
        simp [Except.toOption] at hH
  have hF2 : ∃ e, lib.getFastingInfo k d.year lang = .error e := by
    cases hcase : lib.getFastingInfo k d.year lang with
    | error e => exact ⟨e, rfl⟩
    | ok v =>
        rw [hcase] at hF
        simp [Except.toOption] at hF
  obtain ⟨eH, heH⟩ := hH2
  obtain ⟨eF, heF⟩ := hF2
  have h1 : getDayHolidays lib lang d = [] := by
    simp [getDayHolidays, heH]
  have h2 : keyContrib lib lang d k = [] := by
    simp [keyContrib, heF]
  refine ⟨h1, h2, ?_, h1, rfl⟩
  show FASTING_KEYS.flatMap (keyContrib lib lang d) = _
  apply List.flatMap_congr
  intro j hj
  by_cases hjk : j = k
  · subst hjk
    rw [if_pos rfl]
    exact h2
  · rw [if_neg hjk]

/-- A `DayLib` whose table lookups always throw. -/
def failDayLib : DayLib :=
  { nowEth := { year := 2016, month := 1, day := 5 }
    toGregorian := fun _ => { year := 2023, month := 9, day := 13 }
    getHolidaysInMonth := fun _ _ _ => .error "lookup failed"
    getFastingInfo := fun _ _ _ => .error "lookup failed"
    diffInDays := fun _ _ => 0 }

/-- Witness for C5 with both lookups failing at a concrete date and the
NINEVEH key. -/
theorem lookup_failure_isolated_witness :
    ("NINEVEH" ∈ FASTING_KEYS ∧
        (failDayLib.getHolidaysInMonth testDate.year testDate.month
            "english").toOption = none ∧
        (failDayLib.getFastingInfo "NINEVEH" testDate.year
            "english").toOption = none) ∧
      (getDayHolidays failDayLib "english" testDate = [] ∧
        keyContrib failDayLib "english" testDate "NINEVEH" = [] ∧
        getDayFastingContext failDayLib "english" testDate =
          FASTING_KEYS.flatMap
            (fun j => if j = "NINEVEH" then []
              else keyContrib failDayLib "english" testDate j) ∧
        (getDayInformation failDayLib "english" testDate).holidays = [] ∧
        (getDayInformation failDayLib "english" testDate).fastingPeriods =
          getDayFastingContext failDayLib "english" testDate) :=
  ⟨⟨by decide, rfl, rfl⟩,
    lookup_failure_isolated failDayLib "english" testDate "NINEVEH"
      (by decide) rfl rfl⟩

/-- The date range of a fasting lookup result: `none` both when the lookup
returned no record and when the record has no period (the
`!fastingInfo || !fastingInfo.period` test). -/
def fastPeriodOf (fi : Option FastingInfo) : Option (EthDate × EthDate) :=
  match fi with
  | none => none
  | some i => i.period

/-- Claim C7: when the TSOME_DIHENET lookup yields no date range, the
weekly fast appears in `getDayFastingContext` exactly when the date's
weekday (from its Gregorian equivalent, Sunday = 0) is Wednesday (3) or
Friday (5). -/
theorem tsome_dihnet_weekly_rule (lib : DayLib) (lang : String)
    (d : EthDate) (fi : Option FastingInfo)
    (hok : lib.getFastingInfo "TSOME_DIHENET" d.year lang = .ok fi)
    (hper : fastPeriodOf fi = none) :
    (∃ f ∈ getDayFastingContext lib lang d, f.key = "TSOME_DIHENET") ↔
      (getWeekday lib d = 3 ∨ getWeekday lib d = 5) := by
  have hne : keyContrib lib lang d "TSOME_DIHENET" ≠ [] ↔
      isTsomeDihnetFastDay lib d = true := by
    cases fi with
    | none =>
        simp only [keyContrib, hok]
        split_ifs with h1 h2 <;> simp_all
    | some info =>
        have hp : info.period = none := by simpa [fastPeriodOf] using hper
        simp only [keyContrib, hok, hp]
        split_ifs with h1 h2 <;> simp_all
  have hwd : isTsomeDihnetFastDay lib d = true ↔
      (getWeekday lib d = 3 ∨ getWeekday lib d = 5) := by
    simp [isTsomeDihnetFastDay]
  constructor
  · rintro ⟨f, hf, hkey⟩
    simp only [getDayFastingContext] at hf
    obtain ⟨j, hj, hfj⟩ := List.mem_flatMap.mp hf
    have hkj : f.key = j := keyContrib_key lib lang d j f hfj
    have hjTD : j = "TSOME_DIHENET" := by rw [← hkj, hkey]
    subst hjTD
    have hne2 : keyContrib lib lang d "TSOME_DIHENET" ≠ [] := by
      intro h0
      rw [h0] at hfj
      simp at hfj
    exact hwd.mp (hne.mp hne2)
  · intro hw
    have hne2 := hne.mpr (hwd.mpr hw)
    obtain ⟨f, hfmem⟩ := List.exists_mem_of_ne_nil _ hne2
    refine ⟨f, ?_, keyContrib_key lib lang d _ f hfmem⟩
    simp only [getDayFastingContext]
    exact List.mem_flatMap.mpr ⟨"TSOME_DIHENET", by decide, hfmem⟩

/-- Witness for C7: with the fixed Gregorian equivalent 2023-09-13 (a
Wednesday), the weekly fast rule fires at weekday 3. -/
theorem tsome_dihnet_weekly_rule_witness :
    (testDayLib.getFastingInfo "TSOME_DIHENET" testDate.year "english" =
        .ok none ∧
      fastPeriodOf none = none) ∧
      ((∃ f ∈ getDayFastingContext testDayLib "english" testDate,
          f.key = "TSOME_DIHENET") ↔
        (getWeekday testDayLib testDate = 3 ∨
          getWeekday testDayLib testDate = 5)) :=
  ⟨⟨rfl, rfl⟩,
    tsome_dihnet_weekly_rule testDayLib "english" testDate none rfl rfl⟩
